import Mathlib

/-!
Shallow embedding of the MouseOverlay Vencord plugin
(`src/MouseOverlay/index.tsx`) and proofs about its behaviour.

Numbers are modelled as `ℚ` (the arithmetic the code performs — division by
2 and 4, multiplication by 0.5, comparison, addition of the 100ms delay — is
exact on the values involved).  DOM nodes are modelled by identity: the
overlay node and stylesheet node as booleans (reference held ∧ attached,
which coincide in every state the host framework can produce, since it
pairs `start`/`stop`), trail-dot elements as records carrying a fresh
numeric identity plus their `left`/`top` style values.  The external
settings store (`Settings.plugins.MouseOverlay`) is a possibly-missing
snapshot with possibly-missing fields, read live at every event, and
mutated only by settings-change events.  `setTimeout` is modelled as a
pending-timer list `(dot id, deadline)`; the event loop fires timers as
separate events (the code never cancels a timer).
-/

namespace MouseOverlay

/-- The settings record, as typed by `interface MouseOverlaySettings`. -/
structure MouseOverlaySettings where
  cursorSize : ℚ
  cursorColor : String
  trailEnabled : Bool
  trailColor : String
  trailLength : ℚ
  cursorStyle : String
deriving DecidableEq

/-- `CURSOR_URL` from the source. -/
def CURSOR_URL : String :=
  "https://github.com/Aitoner/MouseOverlay-Cursors/blob/main/Cursors/ntts.png?raw=true"

/-- `defaultSettings` from the source. -/
def defaultSettings : MouseOverlaySettings :=
  { cursorSize := 20
    cursorColor := "#ffffff"
    trailEnabled := false
    trailColor := "#ffffff"
    trailLength := 5
    cursorStyle := "circle" }

/-- A live snapshot of `Settings.plugins.MouseOverlay`: every field may be
missing (JS `undefined`), in which case the code falls back with `??`
(or plain truthiness, for `trailEnabled`). -/
structure SettingsSnapshot where
  cursorSize : Option ℚ
  cursorColor : Option String
  trailEnabled : Option Bool
  trailColor : Option String
  trailLength : Option ℚ
  cursorStyle : Option String
deriving DecidableEq

/-- `settings.cursorSize ?? defaultSettings.cursorSize` (line 101 / 154). -/
def resolvedCursorSize (st : SettingsSnapshot) : ℚ :=
  st.cursorSize.getD defaultSettings.cursorSize

/-- `settings.cursorColor ?? defaultSettings.cursorColor` (line 102). -/
def resolvedCursorColor (st : SettingsSnapshot) : String :=
  st.cursorColor.getD defaultSettings.cursorColor

/-- `settings.trailColor ?? defaultSettings.trailColor` (line 103). -/
def resolvedTrailColor (st : SettingsSnapshot) : String :=
  st.trailColor.getD defaultSettings.trailColor

/-- `settings.cursorStyle ?? defaultSettings.cursorStyle` (line 104). -/
def resolvedCursorStyle (st : SettingsSnapshot) : String :=
  st.cursorStyle.getD defaultSettings.cursorStyle

/-- `settings.trailLength ?? defaultSettings.trailLength` (line 165). -/
def resolvedTrailLength (st : SettingsSnapshot) : ℚ :=
  st.trailLength.getD defaultSettings.trailLength

/-- JS truthiness of `settings.trailEnabled` (line 157): a missing field is
falsy. -/
def resolvedTrailEnabled (st : SettingsSnapshot) : Bool :=
  st.trailEnabled.getD false

/-- The resolved trailLength for a possibly-missing store snapshot (when the
whole snapshot is missing the handlers bail out before reading it; the
compiled-in default is the reference value then). -/
def storeTrailLength (store : Option SettingsSnapshot) : ℚ :=
  match store with
  | some st => resolvedTrailLength st
  | none => defaultSettings.trailLength

/-- The template literal assigned to `style.textContent` (lines 106-145),
as a function of the four resolved settings it interpolates. -/
def buildStyleText (cursorSize : ℚ) (cursorColor : String)
    (trailColor : String) (cursorStyle : String) : String :=
  let shapeCss : String :=
    if cursorStyle = "circle" then
      s!"
                    background-color: {cursorColor};
                    border-radius: 50%;
                "
    else
      s!"
                    background-image: url(\x27{CURSOR_URL}\x27);
                    background-size: contain;
                    background-repeat: no-repeat;
                    background-position: center;
                "
  s!"
            * \x7b
                cursor: none !important;
            \x7d
            a, button, [role=\"button\"], [class*=\"clickable\"], [class*=\"interactive\"],
            [class*=\"control\"], input, textarea, select, [class*=\"slider\"],
            [class*=\"scrollbar\"], [class*=\"icon\"], [class*=\"menu\"],
            [class*=\"option\"], [class*=\"item\"], [class*=\"attachment\"],
            [class*=\"card\"], [class*=\"container\"], [class*=\"wrapper\"] \x7b
                cursor: none !important;
            \x7d
            #vencord-mouse-overlay \x7b
                position: fixed;
                width: {cursorSize}px;
                height: {cursorSize}px;
                pointer-events: none;
                z-index: 999999;
                transition: transform 0.1s ease;
                will-change: transform;
                {shapeCss}
            \x7d
            .mouse-trail \x7b
                position: fixed;
                width: {cursorSize * 0.5}px;
                height: {cursorSize * 0.5}px;
                background-color: {trailColor};
                border-radius: 50%;
                pointer-events: none;
                z-index: 999998;
                opacity: 0.5;
            \x7d
        "

/-- `updateStyles` body after the guards: resolve the four interpolated
settings with their defaults and build the stylesheet text (lines 101-145). -/
def styleTextFor (st : SettingsSnapshot) : String :=
  buildStyleText (resolvedCursorSize st) (resolvedCursorColor st)
    (resolvedTrailColor st) (resolvedCursorStyle st)

/-- Identity of a trail-dot DOM element (`document.createElement` yields a
fresh node; identities are drawn from a counter). -/
abbrev DotId := ℕ

/-- A trail-dot element: its identity and its `style.left` / `style.top`
values (lines 158-161). -/
structure Dot where
  id : DotId
  left : ℚ
  top : ℚ
deriving DecidableEq

/-- The ids of a list of dots. -/
def dotIds (l : List Dot) : List DotId := l.map Dot.id

/-- The module-level mutable state (lines 44-47) together with the DOM
surface, the pending `setTimeout` timers and the external settings store.

`style` / `cursor` model "reference held and node attached" (these coincide
in every host-framework-conformant run).  `attachedDots` is the list of
trail-dot elements currently in `document.body`, in attachment order.
`trail` is the queue array.  `timers` holds `(dot id, deadline)` for every
scheduled, not-yet-fired removal callback.  `now` is the event-loop clock
(bookkeeping for deadlines; advanced by the timestamps of move events). -/
structure OverlayState where
  style : Bool
  styleText : String
  cursor : Bool
  cursorTransform : Option (ℚ × ℚ)
  listener : Bool
  trail : List Dot
  attachedDots : List Dot
  timers : List (DotId × ℚ)
  nextId : DotId
  now : ℚ
  store : Option SettingsSnapshot
deriving DecidableEq

/-- `updateStyles()` (lines 95-146): bail out when the stylesheet node or
the settings snapshot is missing, else assign the rebuilt text wholesale. -/
def updateStyles (s : OverlayState) : OverlayState :=
  if s.style = false then s else
  match s.store with
  | none => s
  | some st => { s with styleText := styleTextFor st }

/-- Lines 158-163: create the dot, set its class and `left`/`top`, append
it to `document.body` and push it onto the queue.  Returns the new state
and the created element. -/
def spawnDot (s : OverlayState) (x y size : ℚ) : OverlayState × Dot :=
  let dot : Dot := { id := s.nextId, left := x - size / 4, top := y - size / 4 }
  ({ s with attachedDots := s.attachedDots ++ [dot]
            trail := s.trail ++ [dot]
            nextId := s.nextId + 1 }, dot)

/-- Lines 165-170: when the queue length exceeds the resolved trailLength,
remove the oldest dot from the DOM if still attached (`trail[0]?.parentNode`
check) and shift it off the queue. -/
def evictOverflow (s : OverlayState) (limit : ℚ) : OverlayState :=
  if ((s.trail.length : ℚ) > limit) then
    match s.trail with
    | [] => s
    | d0 :: rest =>
      let s :=
        if s.attachedDots.any (fun d => d.id == d0.id) then
          { s with attachedDots := s.attachedDots.filter (fun d => d.id != d0.id) }
        else s
      { s with trail := rest }
  else s

/-- Lines 172-177: register the 100ms removal timer for the new dot. -/
def scheduleRemoval (s : OverlayState) (i : DotId) (t : ℚ) : OverlayState :=
  { s with timers := s.timers ++ [(i, t + 100)] }

/-- The body of the `setTimeout` callback (lines 173-176): remove the
captured dot from the DOM if it still has a parent, and filter it out of
the queue. -/
def fireTimerCallback (s : OverlayState) (i : DotId) : OverlayState :=
  let s :=
    if s.attachedDots.any (fun d => d.id == i) then
      { s with attachedDots := s.attachedDots.filter (fun d => d.id != i) }
    else s
  { s with trail := s.trail.filter (fun d => d.id != i) }

/-- `updateMousePosition(e)` (lines 148-179) for an event at `(x, y)`
dispatched at time `t`. -/
def updateMousePosition (s0 : OverlayState) (x y t : ℚ) : OverlayState :=
  let s := { s0 with now := t }
  if s.cursor = false then s else
  match s.store with
  | none => s
  | some st =>
    let size := resolvedCursorSize st
    let s := { s with cursorTransform := some (x - size / 2, y - size / 2) }
    if resolvedTrailEnabled st then
      let sd := spawnDot s x y size
      let s := evictOverflow sd.1 (resolvedTrailLength st)
      scheduleRemoval s sd.2.id t
    else s

/-- `start()` (lines 181-201): bail out without a body; create and attach
the stylesheet node (fresh, empty text) and the overlay node (fresh, no
transform yet), run `updateStyles`, then bind the move listener. -/
def start (s : OverlayState) (hasBody : Bool) : OverlayState :=
  if hasBody = false then s else
  let s := { s with style := true, styleText := "", cursor := true,
                    cursorTransform := none }
  let s := updateStyles s
  { s with listener := true }

/-- `stop()` (lines 203-217): unbind the listener if bound, detach the
stylesheet and overlay nodes if attached, detach every queued trail dot
(`dot?.parentNode?.removeChild(dot)`), clear the queue, null the
references. -/
def stop (s : OverlayState) : OverlayState :=
  let s := if s.listener then { s with listener := false } else s
  let s := if s.style then { s with style := false } else s
  let s := if s.cursor then { s with cursor := false } else s
  { s with attachedDots := s.attachedDots.filter (fun d => !(dotIds s.trail).contains d.id)
           trail := [] }

/-- The keys of the `options` table (lines 57-93). -/
inductive OptionKey where
  | cursorStyle
  | cursorSize
  | cursorColor
  | trailEnabled
  | trailColor
  | trailLength
deriving DecidableEq

/-- The `onChange` callback registered for each option in the `options`
table (lines 57-93): `cursorStyle`, `cursorSize`, `cursorColor` and
`trailColor` each register `function() { this.updateStyles(); }`;
`trailEnabled` and `trailLength` register none. -/
def optionOnChange : OptionKey → Option (OverlayState → OverlayState)
  | OptionKey.cursorStyle => some updateStyles
  | OptionKey.cursorSize => some updateStyles
  | OptionKey.cursorColor => some updateStyles
  | OptionKey.trailEnabled => none
  | OptionKey.trailColor => some updateStyles
  | OptionKey.trailLength => none

/-- The events the environment can deliver: a mousemove at `(x, y)` at time
`t`, the firing of the removal timer of dot `i`, a settings-store write
(new store contents plus which option changed, which runs that option's
registered `onChange`), and the framework lifecycle calls. -/
inductive Event where
  | move (x y t : ℚ)
  | timerFire (i : DotId)
  | setStore (store : Option SettingsSnapshot) (k : OptionKey)
  | startEv (hasBody : Bool)
  | stopEv
deriving DecidableEq

/-- One environment event applied to the state. -/
def step (s : OverlayState) : Event → OverlayState
  | Event.move x y t => updateMousePosition s x y t
  | Event.timerFire i =>
      fireTimerCallback { s with timers := s.timers.filter (fun p => p.1 != i) } i
  | Event.setStore store k =>
      let s := { s with store := store }
      match optionOnChange k with
      | some f => f s
      | none => s
  | Event.startEv hasBody => start s hasBody
  | Event.stopEv => stop s

/-- Run a list of events. -/
def runTrace (s : OverlayState) (es : List Event) : OverlayState :=
  es.foldl step s

/-- The INACTIVE module state before `start`, over a given initial store. -/
def initialState (store : Option SettingsSnapshot) : OverlayState :=
  { style := false, styleText := "", cursor := false, cursorTransform := none,
    listener := false, trail := [], attachedDots := [], timers := [],
    nextId := 0, now := 0, store := store }

/-- Environment conditions for an event to be deliverable: move events
carry a non-decreasing timestamp, only a scheduled timer can fire, and the
host framework only calls `start` from the INACTIVE state (it pairs
`start`/`stop`, as the spec records). -/
def WfStep (s : OverlayState) : Event → Prop
  | Event.move _ _ t => s.now ≤ t
  | Event.timerFire i => ∃ dl, (i, dl) ∈ s.timers
  | Event.startEv _ => s.listener = false
  | _ => True

/-- The states reachable from an initial state by deliverable events. -/
inductive Reachable : OverlayState → Prop where
  | init (store : Option SettingsSnapshot) : Reachable (initialState store)
  | next {s : OverlayState} {e : Event} :
      Reachable s → WfStep s e → Reachable (step s e)

/-! ### Characterizations of the operations -/

theorem updateStyles_eq (s : OverlayState) :
    ∃ txt, updateStyles s = { s with styleText := txt } := by
  rcases s with ⟨st, stx, cur, ct, li, tr, ad, tm, ni, no, sto⟩
  cases st
  · exact ⟨stx, rfl⟩
  · rcases sto with _ | snap
    · exact ⟨stx, rfl⟩
    · exact ⟨styleTextFor snap, rfl⟩

theorem step_setStore_eq (s : OverlayState) (store : Option SettingsSnapshot)
    (k : OptionKey) :
    ∃ txt, step s (Event.setStore store k) =
      { s with store := store, styleText := txt } := by
  obtain ⟨txt, h⟩ := updateStyles_eq { s with store := store }
  cases k <;> simp only [step, optionOnChange] <;>
    first
      | exact ⟨txt, h⟩
      | exact ⟨s.styleText, rfl⟩

theorem start_eq (s : OverlayState) (hasBody : Bool) :
    start s hasBody = s ∨
      ∃ txt, start s hasBody =
        { s with style := true, styleText := txt, cursor := true,
                 cursorTransform := none, listener := true } := by
  cases hasBody with
  | false => exact Or.inl rfl
  | true =>
    right
    obtain ⟨txt, h⟩ := updateStyles_eq
      { s with style := true, styleText := "", cursor := true, cursorTransform := none }
    exact ⟨txt, congrArg (fun z : OverlayState => { z with listener := true }) h⟩

theorem stop_eq (s : OverlayState) :
    stop s = { s with
        listener := false
        style := false
        cursor := false
        attachedDots := s.attachedDots.filter (fun d => !(dotIds s.trail).contains d.id)
        trail := [] } := by
  rcases s with ⟨st, stx, cur, ct, li, tr, ad, tm, ni, no, sto⟩
  cases li <;> cases st <;> cases cur <;> rfl

theorem spawnDot_eq (s : OverlayState) (x y size : ℚ) :
    spawnDot s x y size =
      ({ s with
          attachedDots := s.attachedDots ++ [⟨s.nextId, x - size / 4, y - size / 4⟩]
          trail := s.trail ++ [⟨s.nextId, x - size / 4, y - size / 4⟩]
          nextId := s.nextId + 1 }, ⟨s.nextId, x - size / 4, y - size / 4⟩) := rfl

theorem move_eq_noCursor (s : OverlayState) (x y t : ℚ) (h : s.cursor = false) :
    updateMousePosition s x y t = { s with now := t } := by
  unfold updateMousePosition
  simp [h]

theorem move_eq_noStore (s : OverlayState) (x y t : ℚ) (h : s.store = none) :
    updateMousePosition s x y t = { s with now := t } := by
  unfold updateMousePosition
  simp [h]

theorem move_eq_noTrail (s : OverlayState) (st : SettingsSnapshot) (x y t : ℚ)
    (hc : s.cursor = true) (hst : s.store = some st)
    (hen : resolvedTrailEnabled st = false) :
    updateMousePosition s x y t =
      { s with now := t,
               cursorTransform := some (x - resolvedCursorSize st / 2,
                                        y - resolvedCursorSize st / 2) } := by
  unfold updateMousePosition
  simp [hc, hst, hen]

theorem move_eq_trail (s : OverlayState) (st : SettingsSnapshot) (x y t : ℚ)
    (hc : s.cursor = true) (hst : s.store = some st)
    (hen : resolvedTrailEnabled st = true) :
    updateMousePosition s x y t =
      scheduleRemoval
        (evictOverflow
          { s with now := t,
                   cursorTransform := some (x - resolvedCursorSize st / 2,
                                            y - resolvedCursorSize st / 2),
                   attachedDots := s.attachedDots ++
                     [⟨s.nextId, x - resolvedCursorSize st / 4,
                       y - resolvedCursorSize st / 4⟩],
                   trail := s.trail ++
                     [⟨s.nextId, x - resolvedCursorSize st / 4,
                       y - resolvedCursorSize st / 4⟩],
                   nextId := s.nextId + 1 }
          (resolvedTrailLength st))
        s.nextId t := by
  unfold updateMousePosition
  simp [hc, hst, hen, spawnDot]

theorem evictOverflow_shape (s : OverlayState) (limit : ℚ) :
    ∃ A T, evictOverflow s limit = { s with attachedDots := A, trail := T } ∧
      (∀ d ∈ A, d ∈ s.attachedDots) ∧ (∀ d ∈ T, d ∈ s.trail) := by
  rcases s with ⟨st, stx, cur, ct, li, tr, ad, tm, ni, no, sto⟩
  by_cases h : ((tr.length : ℚ) > limit)
  · cases tr with
    | nil => exact ⟨ad, [], by simp [evictOverflow, h], fun d hd => hd, fun d hd => hd⟩
    | cons d0 rest =>
      have h' : limit < ((rest.length : ℚ) + 1) := by
        rw [List.length_cons] at h
        push_cast at h
        linarith
      by_cases ha : ad.any (fun d => d.id == d0.id) = true
      · refine ⟨ad.filter (fun d => d.id != d0.id), rest,
          by simp [evictOverflow, h', ha], ?_, ?_⟩
        · exact fun d hd => (List.mem_filter.mp hd).1
        · exact fun d hd => List.mem_cons_of_mem _ hd
      · refine ⟨ad, rest, by simp [evictOverflow, h', ha], fun d hd => hd, ?_⟩
        exact fun d hd => List.mem_cons_of_mem _ hd
  · exact ⟨ad, tr, by simp [evictOverflow, h], fun d hd => hd, fun d hd => hd⟩

theorem evictOverflow_eq (s : OverlayState) (limit : ℚ)
    (hEq : s.attachedDots = s.trail)
    (hpw : s.trail.Pairwise (fun a b => a.id < b.id)) :
    evictOverflow s limit =
      if ((s.trail.length : ℚ) > limit)
      then { s with attachedDots := s.trail.tail, trail := s.trail.tail }
      else s := by
  rcases s with ⟨st, stx, cur, ct, li, tr, ad, tm, ni, no, sto⟩
  dsimp only at hEq hpw ⊢
  subst hEq
  by_cases h : ((ad.length : ℚ) > limit)
  · cases ad with
    | nil => simp [evictOverflow, h]
    | cons d0 rest =>
      have h' : limit < ((rest.length : ℚ) + 1) := by
        rw [List.length_cons] at h
        push_cast at h
        linarith
      have h1 : ∀ b ∈ rest, d0.id < b.id := (List.pairwise_cons.mp hpw).1
      have hrest : rest.filter (fun d => d.id != d0.id) = rest :=
        List.filter_eq_self.mpr (fun d hd => bne_iff_ne.mpr (h1 d hd).ne')
      simp [evictOverflow, h', hrest]
  · simp [evictOverflow, h]

theorem fireTimerCallback_shape (s : OverlayState) (i : DotId) :
    ∃ A, fireTimerCallback s i =
        { s with attachedDots := A, trail := s.trail.filter (fun d => d.id != i) } ∧
      ∀ d ∈ A, d ∈ s.attachedDots ∧ d.id ≠ i := by
  rcases s with ⟨st, stx, cur, ct, li, tr, ad, tm, ni, no, sto⟩
  by_cases ha : ad.any (fun d => d.id == i) = true
  · refine ⟨ad.filter (fun d => d.id != i), by simp [fireTimerCallback, ha], ?_⟩
    intro d hd
    have h := List.mem_filter.mp hd
    exact ⟨h.1, bne_iff_ne.mp h.2⟩
  · refine ⟨ad, by simp [fireTimerCallback, ha], ?_⟩
    intro d hd
    have h := List.any_eq_false.mp (Bool.not_eq_true _ ▸ ha) d hd
    exact ⟨hd, by simpa using h⟩

theorem fireTimerCallback_of_absent (s : OverlayState) (i : DotId)
    (ha : ∀ d ∈ s.attachedDots, d.id ≠ i) (hq : ∀ d ∈ s.trail, d.id ≠ i) :
    fireTimerCallback s i = s := by
  have hany : s.attachedDots.any (fun d => d.id == i) = false :=
    List.any_eq_false.mpr (fun d hd => by simpa using ha d hd)
  have hfil : s.trail.filter (fun d => d.id != i) = s.trail :=
    List.filter_eq_self.mpr (fun d hd => bne_iff_ne.mpr (hq d hd))
  rcases s with ⟨st, stx, cur, ct, li, tr, ad, tm, ni, no, sto⟩
  simp only at hany hfil
  simp [fireTimerCallback, hany, hfil]

theorem fireTimerCallback_eq (s : OverlayState) (i : DotId)
    (hEq : s.attachedDots = s.trail) :
    fireTimerCallback s i =
      { s with attachedDots := s.trail.filter (fun d => d.id != i)
               trail := s.trail.filter (fun d => d.id != i) } := by
  rcases s with ⟨st, stx, cur, ct, li, tr, ad, tm, ni, no, sto⟩
  dsimp only at hEq ⊢
  subst hEq
  by_cases ha : ad.any (fun d => d.id == i) = true
  · simp [fireTimerCallback, ha]
  · have hall : ∀ d ∈ ad, ¬((d.id == i) = true) :=
      List.any_eq_false.mp (Bool.not_eq_true _ ▸ ha)
    have hfil : ad.filter (fun d => d.id != i) = ad :=
      List.filter_eq_self.mpr (fun d hd => by simpa using hall d hd)
    simp [fireTimerCallback, ha, hfil]

/-! ### The reachable-state invariant -/

/-- Invariant of reachable states: the attached trail-dot elements are
exactly the queue (in order); queue ids are strictly increasing (spawn
order); all ids in play are below the freshness counter; and every queued
dot has a pending removal timer whose deadline is at most 100ms away. -/
def Inv (s : OverlayState) : Prop :=
  s.attachedDots = s.trail ∧
  s.trail.Pairwise (fun a b => a.id < b.id) ∧
  (∀ d ∈ s.trail, d.id < s.nextId) ∧
  (∀ p ∈ s.timers, p.1 < s.nextId) ∧
  (∀ d ∈ s.trail, ∃ dl, (d.id, dl) ∈ s.timers ∧ dl ≤ s.now + 100)

theorem inv_initial (store : Option SettingsSnapshot) :
    Inv (initialState store) := by
  refine ⟨rfl, List.Pairwise.nil, ?_, ?_, ?_⟩ <;> intro d hd <;>
    simp [initialState] at hd

theorem inv_spawn_aux (s : OverlayState) (t : ℚ) (ctv : Option (ℚ × ℚ))
    (n : Dot) (hn : n.id = s.nextId) (hinv : Inv s) (ht : s.now ≤ t)
    (T2 : List Dot) (hT2 : T2.Sublist (s.trail ++ [n])) :
    Inv { s with
          now := t
          cursorTransform := ctv
          attachedDots := T2
          trail := T2
          nextId := s.nextId + 1
          timers := s.timers ++ [(n.id, t + 100)] } := by
  obtain ⟨hEq, hpw, hfr, htfr, htm⟩ := hinv
  have hpwF : (s.trail ++ [n]).Pairwise (fun a b => a.id < b.id) := by
    rw [List.pairwise_append]
    refine ⟨hpw, List.pairwise_singleton _ _, ?_⟩
    intro a ha b hb
    rw [List.mem_singleton] at hb
    subst hb
    rw [hn]
    exact hfr a ha
  refine ⟨rfl, List.Pairwise.sublist hT2 hpwF, ?_, ?_, ?_⟩
  · intro d hd
    rcases List.mem_append.mp (hT2.subset hd) with h | h
    · exact Nat.lt_succ_of_lt (hfr d h)
    · rw [List.mem_singleton] at h
      subst h
      rw [hn]
      exact Nat.lt_succ_self _
  · intro p hp
    rcases List.mem_append.mp hp with h | h
    · exact Nat.lt_succ_of_lt (htfr p h)
    · rw [List.mem_singleton] at h
      subst h
      rw [hn]
      exact Nat.lt_succ_self _
  · intro d hd
    rcases List.mem_append.mp (hT2.subset hd) with h | h
    · obtain ⟨dl, hmem, hle⟩ := htm d h
      exact ⟨dl, List.mem_append_left _ hmem, by linarith⟩
    · rw [List.mem_singleton] at h
      subst h
      exact ⟨t + 100, List.mem_append_right _ (List.mem_singleton.mpr rfl),
        le_refl _⟩

theorem inv_move (s : OverlayState) (x y t : ℚ) (hinv : Inv s)
    (ht : s.now ≤ t) : Inv (updateMousePosition s x y t) := by
  obtain ⟨hEq, hpw, hfr, htfr, htm⟩ := hinv
  have hbump : ∀ d ∈ s.trail, ∃ dl, (d.id, dl) ∈ s.timers ∧ dl ≤ t + 100 := by
    intro d hd
    obtain ⟨dl, hmem, hle⟩ := htm d hd
    exact ⟨dl, hmem, by linarith⟩
  by_cases hc : s.cursor = false
  · rw [move_eq_noCursor s x y t hc]
    exact ⟨hEq, hpw, hfr, htfr, hbump⟩
  · have hc' : s.cursor = true := by
      simpa using hc
    cases hst : s.store with
    | none =>
      rw [move_eq_noStore s x y t hst]
      exact ⟨hEq, hpw, hfr, htfr, hbump⟩
    | some st =>
      by_cases hen : resolvedTrailEnabled st = true
      · rw [move_eq_trail s st x y t hc' hst hen, hEq]
        set n : Dot := ⟨s.nextId, x - resolvedCursorSize st / 4,
          y - resolvedCursorSize st / 4⟩ with hn
        set s1 : OverlayState :=
          { s with now := t,
                   cursorTransform := some (x - resolvedCursorSize st / 2,
                                            y - resolvedCursorSize st / 2),
                   attachedDots := s.trail ++ [n],
                   trail := s.trail ++ [n],
                   nextId := s.nextId + 1 } with hs1
        have hEq1 : s1.attachedDots = s1.trail := rfl
        have hpw1 : s1.trail.Pairwise (fun a b => a.id < b.id) := by
          rw [hs1]
          dsimp only
          rw [List.pairwise_append]
          refine ⟨hpw, List.pairwise_singleton _ _, ?_⟩
          intro a ha b hb
          rw [List.mem_singleton] at hb
          subst hb
          exact hfr a ha
        rw [evictOverflow_eq s1 (resolvedTrailLength st) hEq1 hpw1]
        by_cases hov : ((s1.trail.length : ℚ) > resolvedTrailLength st)
        · rw [if_pos hov]
          exact inv_spawn_aux s t _ n rfl ⟨hEq, hpw, hfr, htfr, htm⟩ ht _
            (List.tail_sublist _)
        · rw [if_neg hov]
          exact inv_spawn_aux s t _ n rfl ⟨hEq, hpw, hfr, htfr, htm⟩ ht _
            (List.Sublist.refl _)
      · have hen' : resolvedTrailEnabled st = false := by
          simpa using hen
        rw [move_eq_noTrail s st x y t hc' hst hen']
        exact ⟨hEq, hpw, hfr, htfr, hbump⟩

theorem inv_fire (s : OverlayState) (i : DotId) (hinv : Inv s) :
    Inv (step s (Event.timerFire i)) := by
  obtain ⟨hEq, hpw, hfr, htfr, htm⟩ := hinv
  show Inv (fireTimerCallback { s with timers := s.timers.filter (fun p => p.1 != i) } i)
  have hEq' :
      ({ s with timers := s.timers.filter (fun p => p.1 != i) } : OverlayState).attachedDots =
        ({ s with timers := s.timers.filter (fun p => p.1 != i) } : OverlayState).trail := hEq
  rw [fireTimerCallback_eq _ i hEq']
  refine ⟨rfl, ?_, ?_, ?_, ?_⟩
  · exact List.Pairwise.sublist (List.filter_sublist _) hpw
  · intro d hd
    exact hfr d (List.mem_filter.mp hd).1
  · intro p hp
    exact htfr p ((List.filter_sublist _).subset hp)
  · intro d hd
    obtain ⟨hdt, hdi⟩ := List.mem_filter.mp hd
    obtain ⟨dl, hmem, hle⟩ := htm d hdt
    exact ⟨dl, List.mem_filter.mpr ⟨hmem, hdi⟩, hle⟩

theorem inv_setStore (s : OverlayState) (store : Option SettingsSnapshot)
    (k : OptionKey) (hinv : Inv s) : Inv (step s (Event.setStore store k)) := by
  obtain ⟨txt, h⟩ := step_setStore_eq s store k
  rw [h]
  exact hinv

theorem inv_start (s : OverlayState) (hasBody : Bool) (hinv : Inv s) :
    Inv (step s (Event.startEv hasBody)) := by
  show Inv (start s hasBody)
  rcases start_eq s hasBody with h | ⟨txt, h⟩ <;> rw [h]
  · exact hinv
  · exact hinv

theorem inv_stop (s : OverlayState) (hinv : Inv s) :
    Inv (step s Event.stopEv) := by
  obtain ⟨hEq, hpw, hfr, htfr, htm⟩ := hinv
  show Inv (stop s)
  rw [stop_eq s]
  have hnil : s.attachedDots.filter (fun d => !(dotIds s.trail).contains d.id) = [] := by
    rw [List.filter_eq_nil_iff]
    intro d hd
    have hdt : d ∈ s.trail := hEq ▸ hd
    have hmem : d.id ∈ dotIds s.trail := List.mem_map_of_mem Dot.id hdt
    simp
    exact hmem
  refine ⟨hnil, List.Pairwise.nil, ?_, htfr, ?_⟩
  · intro d hd
    simp at hd
  · intro d hd
    simp at hd

theorem reachable_inv (s : OverlayState) (hs : Reachable s) : Inv s := by
  induction hs with
  | init store => exact inv_initial store
  | next hr hwf ih =>
    rename_i s' e
    cases e with
    | move x y t => exact inv_move s' x y t ih hwf
    | timerFire i => exact inv_fire s' i ih
    | setStore store k => exact inv_setStore s' store k ih
    | startEv hasBody => exact inv_start s' hasBody ih
    | stopEv => exact inv_stop s' ih

/-! ### A removed dot never comes back -/

/-- Dot id `i` occurs nowhere in the surface or the queue, and is below the
freshness counter (so no later event can mint it again). -/
def DotAbsent (s : OverlayState) (i : DotId) : Prop :=
  (∀ d ∈ s.attachedDots, d.id ≠ i) ∧ (∀ d ∈ s.trail, d.id ≠ i) ∧ i < s.nextId

theorem absent_step (s : OverlayState) (e : Event) (i : DotId)
    (h : DotAbsent s i) : DotAbsent (step s e) i := by
  obtain ⟨ha, hq, hlt⟩ := h
  cases e with
  | move x y t =>
    show DotAbsent (updateMousePosition s x y t) i
    by_cases hc : s.cursor = false
    · rw [move_eq_noCursor s x y t hc]
      exact ⟨ha, hq, hlt⟩
    · have hc' : s.cursor = true := by simpa using hc
      cases hst : s.store with
      | none =>
        rw [move_eq_noStore s x y t hst]
        exact ⟨ha, hq, hlt⟩
      | some st =>
        by_cases hen : resolvedTrailEnabled st = true
        · rw [move_eq_trail s st x y t hc' hst hen]
          obtain ⟨A, T, hres, hA, hT⟩ := evictOverflow_shape
            { s with now := t,
                     cursorTransform := some (x - resolvedCursorSize st / 2,
                                              y - resolvedCursorSize st / 2),
                     attachedDots := s.attachedDots ++
                       [⟨s.nextId, x - resolvedCursorSize st / 4,
                         y - resolvedCursorSize st / 4⟩],
                     trail := s.trail ++
                       [⟨s.nextId, x - resolvedCursorSize st / 4,
                         y - resolvedCursorSize st / 4⟩],
                     nextId := s.nextId + 1 }
            (resolvedTrailLength st)
          rw [hres]
          refine ⟨?_, ?_, Nat.lt_succ_of_lt hlt⟩
          · intro d hd
            rcases List.mem_append.mp (hA d hd) with h' | h'
            · exact ha d h'
            · rw [List.mem_singleton] at h'
              subst h'
              exact ne_of_gt hlt
          · intro d hd
            rcases List.mem_append.mp (hT d hd) with h' | h'
            · exact hq d h'
            · rw [List.mem_singleton] at h'
              subst h'
              exact ne_of_gt hlt
        · have hen' : resolvedTrailEnabled st = false := by simpa using hen
          rw [move_eq_noTrail s st x y t hc' hst hen']
          exact ⟨ha, hq, hlt⟩
  | timerFire j =>
    show DotAbsent
      (fireTimerCallback { s with timers := s.timers.filter (fun p => p.1 != j) } j) i
    obtain ⟨A, hres, hA⟩ := fireTimerCallback_shape
      { s with timers := s.timers.filter (fun p => p.1 != j) } j
    rw [hres]
    exact ⟨fun d hd => ha d (hA d hd).1,
      fun d hd => hq d (List.mem_filter.mp hd).1, hlt⟩
  | setStore store k =>
    obtain ⟨txt, h⟩ := step_setStore_eq s store k
    rw [h]
    exact ⟨ha, hq, hlt⟩
  | startEv hasBody =>
    show DotAbsent (start s hasBody) i
    rcases start_eq s hasBody with h | ⟨txt, h⟩ <;> rw [h]
    · exact ⟨ha, hq, hlt⟩
    · exact ⟨ha, hq, hlt⟩
  | stopEv =>
    show DotAbsent (stop s) i
    rw [stop_eq s]
    exact ⟨fun d hd => ha d (List.mem_filter.mp hd).1,
      fun d hd => absurd hd (List.not_mem_nil d), hlt⟩

theorem absent_runTrace (s : OverlayState) (i : DotId) (h : DotAbsent s i)
    (tr : List Event) : DotAbsent (runTrace s tr) i := by
  induction tr generalizing s with
  | nil => exact h
  | cons e es ih => exact ih _ (absent_step s e i h)

theorem fire_absent (s : OverlayState) (i : DotId) (hlt : i < s.nextId) :
    DotAbsent (step s (Event.timerFire i)) i := by
  show DotAbsent
    (fireTimerCallback { s with timers := s.timers.filter (fun p => p.1 != i) } i) i
  obtain ⟨A, hres, hA⟩ := fireTimerCallback_shape
    { s with timers := s.timers.filter (fun p => p.1 != i) } i
  rw [hres]
  refine ⟨fun d hd => (hA d hd).2, ?_, hlt⟩
  intro d hd
  exact bne_iff_ne.mp (List.mem_filter.mp hd).2

/-! ### Field-level facts about the move handler -/

theorem length_tail_append_singleton (l : List Dot) (n : Dot) :
    (l ++ [n]).tail.length = l.length := by
  cases l with
  | nil => rfl
  | cons a l' => simp

theorem evictOverflow_trail (s : OverlayState) (limit : ℚ) :
    (evictOverflow s limit).trail =
      if ((s.trail.length : ℚ) > limit) then s.trail.tail else s.trail := by
  rcases s with ⟨st, stx, cur, ct, li, tr, ad, tm, ni, no, sto⟩
  by_cases h : ((tr.length : ℚ) > limit)
  · cases tr with
    | nil => simp [evictOverflow, h]
    | cons d0 rest =>
      have h' : limit < ((rest.length : ℚ) + 1) := by
        rw [List.length_cons] at h
        push_cast at h
        linarith
      by_cases ha : ad.any (fun d => d.id == d0.id) = true <;>
        simp [evictOverflow, h', ha]
  · simp [evictOverflow, h]

theorem move_fields (s : OverlayState) (x y t : ℚ) :
    (updateMousePosition s x y t).store = s.store ∧
    (updateMousePosition s x y t).cursor = s.cursor ∧
    (updateMousePosition s x y t).style = s.style ∧
    (updateMousePosition s x y t).styleText = s.styleText ∧
    (updateMousePosition s x y t).listener = s.listener := by
  by_cases hc : s.cursor = false
  · rw [move_eq_noCursor s x y t hc]
    exact ⟨rfl, rfl, rfl, rfl, rfl⟩
  · have hc' : s.cursor = true := by simpa using hc
    cases hst : s.store with
    | none =>
      rw [move_eq_noStore s x y t hst]
      exact ⟨hst, rfl, rfl, rfl, rfl⟩
    | some st =>
      by_cases hen : resolvedTrailEnabled st = true
      · rw [move_eq_trail s st x y t hc' hst hen]
        obtain ⟨A, T, hres, hA, hT⟩ := evictOverflow_shape
          { s with now := t,
                   cursorTransform := some (x - resolvedCursorSize st / 2,
                                            y - resolvedCursorSize st / 2),
                   attachedDots := s.attachedDots ++
                     [⟨s.nextId, x - resolvedCursorSize st / 4,
                       y - resolvedCursorSize st / 4⟩],
                   trail := s.trail ++
                     [⟨s.nextId, x - resolvedCursorSize st / 4,
                       y - resolvedCursorSize st / 4⟩],
                   nextId := s.nextId + 1 }
          (resolvedTrailLength st)
        rw [hres]
        exact ⟨hst, rfl, rfl, rfl, rfl⟩
      · have hen' : resolvedTrailEnabled st = false := by simpa using hen
        rw [move_eq_noTrail s st x y t hc' hst hen']
        exact ⟨hst, rfl, rfl, rfl, rfl⟩

theorem move_trail_cases (s : OverlayState) (x y t : ℚ) :
    (updateMousePosition s x y t).trail = s.trail ∨
      ∃ d, (updateMousePosition s x y t).trail = s.trail ++ [d] ∨
           (updateMousePosition s x y t).trail = (s.trail ++ [d]).tail := by
  by_cases hc : s.cursor = false
  · rw [move_eq_noCursor s x y t hc]
    exact Or.inl rfl
  · have hc' : s.cursor = true := by simpa using hc
    cases hst : s.store with
    | none =>
      rw [move_eq_noStore s x y t hst]
      exact Or.inl rfl
    | some st =>
      by_cases hen : resolvedTrailEnabled st = true
      · rw [move_eq_trail s st x y t hc' hst hen]
        set n : Dot := ⟨s.nextId, x - resolvedCursorSize st / 4,
          y - resolvedCursorSize st / 4⟩ with hn
        right
        refine ⟨n, ?_⟩
        have htr := evictOverflow_trail
          { s with now := t,
                   cursorTransform := some (x - resolvedCursorSize st / 2,
                                            y - resolvedCursorSize st / 2),
                   attachedDots := s.attachedDots ++ [n],
                   trail := s.trail ++ [n],
                   nextId := s.nextId + 1 }
          (resolvedTrailLength st)
        show (evictOverflow _ _).trail = _ ∨ (evictOverflow _ _).trail = _
        rw [htr]
        by_cases hov : (((s.trail ++ [n]).length : ℚ) > resolvedTrailLength st)
        · rw [if_pos hov]
          exact Or.inr rfl
        · rw [if_neg hov]
          exact Or.inl rfl
      · have hen' : resolvedTrailEnabled st = false := by simpa using hen
        rw [move_eq_noTrail s st x y t hc' hst hen']
        exact Or.inl rfl

/-! ### Queue-length bounds -/

theorem step_len_pres (L : ℚ) (hL : 0 ≤ L) (s : OverlayState) (e : Event)
    (hst : storeTrailLength s.store = L)
    (he : ∀ st k, e = Event.setStore st k → storeTrailLength st = L)
    (hlen : ((s.trail.length : ℚ)) ≤ L) :
    storeTrailLength (step s e).store = L ∧
      (((step s e).trail.length : ℚ)) ≤ L := by
  cases e with
  | move x y t =>
    show storeTrailLength (updateMousePosition s x y t).store = L ∧
      (((updateMousePosition s x y t).trail.length : ℚ)) ≤ L
    refine ⟨by rw [(move_fields s x y t).1]; exact hst, ?_⟩
    by_cases hc : s.cursor = false
    · rw [move_eq_noCursor s x y t hc]
      exact hlen
    · have hc' : s.cursor = true := by simpa using hc
      cases hstore : s.store with
      | none =>
        rw [move_eq_noStore s x y t hstore]
        exact hlen
      | some st =>
        by_cases hen : resolvedTrailEnabled st = true
        · rw [move_eq_trail s st x y t hc' hstore hen]
          have hLst : resolvedTrailLength st = L := by
            rw [hstore] at hst
            exact hst
          set n : Dot := ⟨s.nextId, x - resolvedCursorSize st / 4,
            y - resolvedCursorSize st / 4⟩ with hn
          have htr := evictOverflow_trail
            { s with now := t,
                     cursorTransform := some (x - resolvedCursorSize st / 2,
                                              y - resolvedCursorSize st / 2),
                     attachedDots := s.attachedDots ++ [n],
                     trail := s.trail ++ [n],
                     nextId := s.nextId + 1 }
            (resolvedTrailLength st)
          show (((evictOverflow _ _).trail.length : ℚ)) ≤ L
          rw [htr]
          by_cases hov : (((s.trail ++ [n]).length : ℚ) > resolvedTrailLength st)
          · rw [if_pos hov, length_tail_append_singleton]
            exact hlen
          · rw [if_neg hov]
            rw [hLst] at hov
            exact le_of_not_lt hov
        · have hen' : resolvedTrailEnabled st = false := by simpa using hen
          rw [move_eq_noTrail s st x y t hc' hstore hen']
          exact hlen
  | timerFire i =>
    obtain ⟨A, hres, hA⟩ := fireTimerCallback_shape
      { s with timers := s.timers.filter (fun p => p.1 != i) } i
    constructor
    · show storeTrailLength (fireTimerCallback _ i).store = L
      rw [hres]
      exact hst
    · show (((fireTimerCallback _ i).trail.length : ℚ)) ≤ L
      rw [hres]
      have hfl : (s.trail.filter (fun d => d.id != i)).length ≤ s.trail.length :=
        List.length_filter_le _ _
      calc ((s.trail.filter (fun d => d.id != i)).length : ℚ)
          ≤ (s.trail.length : ℚ) := by exact_mod_cast hfl
        _ ≤ L := hlen
  | setStore store k =>
    obtain ⟨txt, h⟩ := step_setStore_eq s store k
    rw [h]
    exact ⟨he store k rfl, hlen⟩
  | startEv hasBody =>
    show storeTrailLength (start s hasBody).store = L ∧
      (((start s hasBody).trail.length : ℚ)) ≤ L
    rcases start_eq s hasBody with h | ⟨txt, h⟩ <;> rw [h]
    · exact ⟨hst, hlen⟩
    · exact ⟨hst, hlen⟩
  | stopEv =>
    show storeTrailLength (stop s).store = L ∧ (((stop s).trail.length : ℚ)) ≤ L
    rw [stop_eq s]
    exact ⟨hst, by simpa using hL⟩

theorem run_len_pres (L : ℚ) (hL : 0 ≤ L) :
    ∀ (tr : List Event) (s : OverlayState), storeTrailLength s.store = L →
      ((s.trail.length : ℚ)) ≤ L →
      (∀ st k, Event.setStore st k ∈ tr → storeTrailLength st = L) →
      (((runTrace s tr).trail.length : ℚ)) ≤ L := by
  intro tr
  induction tr with
  | nil => exact fun s _ h2 _ => h2
  | cons e es ih =>
    intro s h1 h2 htr
    obtain ⟨h1', h2'⟩ := step_len_pres L hL s e h1
      (fun st k hek => htr st k (by rw [← hek]; exact List.mem_cons_self _ _)) h2
    exact ih (step s e) h1' h2' (fun st k hm => htr st k (List.mem_cons_of_mem _ hm))

/-! ### Exact queue length under constant settings -/

/-- The move events of a list of `(x, y, t)` triples. -/
def moveEvents (ms : List (ℚ × ℚ × ℚ)) : List Event :=
  ms.map (fun m => Event.move m.1 m.2.1 m.2.2)

/-- The state facts preserved by a run of move events with a fixed store. -/
def QInv (st : SettingsSnapshot) (s : OverlayState) : Prop :=
  s.cursor = true ∧ s.store = some st ∧ s.attachedDots = s.trail ∧
  s.trail.Pairwise (fun a b => a.id < b.id) ∧ ∀ d ∈ s.trail, d.id < s.nextId

theorem qinv_move (st : SettingsSnapshot) (s : OverlayState) (x y t : ℚ)
    (hen : resolvedTrailEnabled st = true) (h : QInv st s) :
    QInv st (updateMousePosition s x y t) ∧
    (updateMousePosition s x y t).trail.length =
      (if (((s.trail.length : ℚ) + 1) > resolvedTrailLength st)
       then s.trail.length else s.trail.length + 1) := by
  obtain ⟨hc, hst, hEq, hpw, hfr⟩ := h
  rw [move_eq_trail s st x y t hc hst hen, hEq]
  set n : Dot := ⟨s.nextId, x - resolvedCursorSize st / 4,
    y - resolvedCursorSize st / 4⟩ with hn
  set s1 : OverlayState :=
    { s with now := t,
             cursorTransform := some (x - resolvedCursorSize st / 2,
                                      y - resolvedCursorSize st / 2),
             attachedDots := s.trail ++ [n],
             trail := s.trail ++ [n],
             nextId := s.nextId + 1 } with hs1
  have hEq1 : s1.attachedDots = s1.trail := rfl
  have hpw1 : s1.trail.Pairwise (fun a b => a.id < b.id) := by
    rw [hs1]
    dsimp only
    rw [List.pairwise_append]
    refine ⟨hpw, List.pairwise_singleton _ _, ?_⟩
    intro a ha b hb
    rw [List.mem_singleton] at hb
    subst hb
    exact hfr a ha
  have hcast : ((s1.trail.length : ℚ)) = (s.trail.length : ℚ) + 1 := by
    rw [hs1]
    dsimp only
    rw [List.length_append, List.length_singleton]
    push_cast
    ring
  rw [evictOverflow_eq s1 (resolvedTrailLength st) hEq1 hpw1]
  by_cases hov : ((s1.trail.length : ℚ) > resolvedTrailLength st)
  · rw [if_pos hov]
    have hov' : (((s.trail.length : ℚ) + 1) > resolvedTrailLength st) := by
      rw [← hcast]
      exact hov
    constructor
    · refine ⟨hc, hst, rfl, List.Pairwise.sublist (List.tail_sublist _) hpw1, ?_⟩
      intro d hd
      rcases List.mem_append.mp ((List.tail_sublist s1.trail).subset hd) with h' | h'
      · exact Nat.lt_succ_of_lt (hfr d h')
      · rw [List.mem_singleton] at h'
        subst h'
        exact Nat.lt_succ_self _
    · show (s1.trail.tail).length = _
      rw [if_pos hov']
      exact length_tail_append_singleton _ _
  · rw [if_neg hov]
    have hov' : ¬(((s.trail.length : ℚ) + 1) > resolvedTrailLength st) := by
      rw [← hcast]
      exact hov
    constructor
    · refine ⟨hc, hst, rfl, hpw1, ?_⟩
      intro d hd
      rcases List.mem_append.mp hd with h' | h'
      · exact Nat.lt_succ_of_lt (hfr d h')
      · rw [List.mem_singleton] at h'
        subst h'
        exact Nat.lt_succ_self _
    · show (s1.trail).length = _
      rw [if_neg hov', hs1]
      dsimp only
      rw [List.length_append, List.length_singleton]

theorem qinv_run (st : SettingsSnapshot) (N : ℕ)
    (hen : resolvedTrailEnabled st = true)
    (hN : resolvedTrailLength st = (N : ℚ)) :
    ∀ (ms : List (ℚ × ℚ × ℚ)) (s : OverlayState), QInv st s →
      s.trail.length ≤ N →
      QInv st (runTrace s (moveEvents ms)) ∧
      (runTrace s (moveEvents ms)).trail.length =
        min (s.trail.length + ms.length) N := by
  intro ms
  induction ms with
  | nil =>
    intro s h hle
    refine ⟨h, ?_⟩
    show s.trail.length = min (s.trail.length + ([] : List (ℚ × ℚ × ℚ)).length) N
    simp only [List.length_nil, Nat.add_zero]
    omega
  | cons m ms ih =>
    intro s h hle
    obtain ⟨h', hlen'⟩ := qinv_move st s m.1 m.2.1 m.2.2 hen h
    rw [hN] at hlen'
    have hcond : (((s.trail.length : ℚ) + 1) > (N : ℚ)) ↔ N < s.trail.length + 1 := by
      constructor
      · intro hgt
        exact_mod_cast (by push_cast; linarith : ((N : ℚ)) < ((s.trail.length + 1 : ℕ) : ℚ))
      · intro hlt
        have : ((N : ℚ)) < ((s.trail.length + 1 : ℕ) : ℚ) := by exact_mod_cast hlt
        push_cast at this
        linarith
    have hle' : (updateMousePosition s m.1 m.2.1 m.2.2).trail.length ≤ N := by
      rw [hlen']
      split_ifs with hcnd
      · exact hle
      · have := (not_iff_not.mpr hcond).mp hcnd
        omega
    obtain ⟨hq, hlen''⟩ := ih (updateMousePosition s m.1 m.2.1 m.2.2) h' hle'
    have hstep : runTrace s (moveEvents (m :: ms)) =
        runTrace (updateMousePosition s m.1 m.2.1 m.2.2) (moveEvents ms) := rfl
    refine ⟨hstep ▸ hq, ?_⟩
    rw [hstep, hlen'', hlen']
    split_ifs with hcnd
    · have := hcond.mp hcnd
      simp only [List.length_cons]
      omega
    · have := (not_iff_not.mpr hcond).mp hcnd
      simp only [List.length_cons]
      omega

/-! ### The claims -/

/-- C1, counterexample: the claim says every option other than `trailLength`
registers a change callback re-invoking `updateStyles`; but `trailEnabled`
(which is not `trailLength`) registers no `onChange` callback at all in the
`options` table (lines 77-81). -/
theorem trailEnabled_has_no_change_callback :
    optionOnChange OptionKey.trailEnabled = none ∧
      OptionKey.trailEnabled ≠ OptionKey.trailLength :=
  ⟨rfl, by decide⟩

/-- C1 (amended): the options `cursorStyle`, `cursorSize`, `cursorColor` and
`trailColor` each register a change callback and that callback re-invokes
`updateStyles`; `trailEnabled` and `trailLength` register no change
callback, so neither has an immediate effect (both are read afresh on the
next pointer-move event). -/
theorem onChange_callback_table (k : OptionKey) :
    optionOnChange k =
      if (k = OptionKey.trailEnabled ∨ k = OptionKey.trailLength) then none
      else some updateStyles := by
  cases k <;> rfl

/-- C6: the 100ms removal callback of a dot whose id is already absent from
both the surface and the queue raises nothing (it is a total function) and
is the identity on the state: the `dot?.parentNode` check skips the DOM
removal and the queue filter removes nothing. -/
theorem removal_callback_idempotent (s : OverlayState) (i : DotId)
    (ha : ∀ d ∈ s.attachedDots, d.id ≠ i) (hq : ∀ d ∈ s.trail, d.id ≠ i) :
    fireTimerCallback s i = s :=
  fireTimerCallback_of_absent s i ha hq

/-- A state holding one trail dot, used to witness C6 at a dot id (7) that
is absent from surface and queue. -/
def idemState : OverlayState :=
  { style := true, styleText := "", cursor := true, cursorTransform := none,
    listener := true, trail := [⟨0, 1, 1⟩], attachedDots := [⟨0, 1, 1⟩],
    timers := [(0, 100)], nextId := 1, now := 0, store := none }

/-- Witness for C6. -/
theorem removal_callback_idempotent_witness :
    fireTimerCallback idemState 7 = idemState :=
  removal_callback_idempotent idemState 7 (by decide) (by decide)

/-- C9: when the resolved cursorStyle is not `"circle"` (the custom-image
branch, value `"custom"` in the options table), the stylesheet text is
independent of the `cursorColor` setting: changing only `cursorColor`
yields character-identical stylesheet text, still referencing the fixed
external image `CURSOR_URL`. -/
theorem custom_style_ignores_cursorColor (st : SettingsSnapshot)
    (c : Option String) (h : resolvedCursorStyle st ≠ "circle") :
    styleTextFor { st with cursorColor := c } = styleTextFor st := by
  have hsize : resolvedCursorSize { st with cursorColor := c } =
    resolvedCursorSize st := rfl
  have htrail : resolvedTrailColor { st with cursorColor := c } =
    resolvedTrailColor st := rfl
  have hstyle : resolvedCursorStyle { st with cursorColor := c } =
    resolvedCursorStyle st := rfl
  simp only [styleTextFor, hsize, htrail, hstyle, buildStyleText, if_neg h]

/-- A snapshot with the custom-image style selected. -/
def customSnap : SettingsSnapshot :=
  { cursorSize := some 32, cursorColor := some "#ff0000",
    trailEnabled := some true, trailColor := some "#00ffcc",
    trailLength := some 9, cursorStyle := some "custom" }

/-- Witness for C9. -/
theorem custom_style_ignores_cursorColor_witness :
    styleTextFor { customSnap with cursorColor := some "#123456" } =
      styleTextFor customSnap :=
  custom_style_ignores_cursorColor customSnap (some "#123456") (by decide)

/-- C10: the stylesheet text is a function of exactly the four resolved
settings `updateStyles` reads — cursorSize, cursorColor, trailColor and
cursorStyle, each falling back to its compiled-in default when missing:
snapshots agreeing on those four resolutions produce character-identical
text, whatever their `trailEnabled` and `trailLength` fields. -/
theorem styleText_function_of_four_settings (st1 st2 : SettingsSnapshot)
    (h1 : resolvedCursorSize st1 = resolvedCursorSize st2)
    (h2 : resolvedCursorColor st1 = resolvedCursorColor st2)
    (h3 : resolvedTrailColor st1 = resolvedTrailColor st2)
    (h4 : resolvedCursorStyle st1 = resolvedCursorStyle st2) :
    styleTextFor st1 = styleTextFor st2 := by
  simp only [styleTextFor]
  rw [h1, h2, h3, h4]

/-- A snapshot with every field missing (all resolutions fall to defaults). -/
def bareSnap : SettingsSnapshot :=
  { cursorSize := none, cursorColor := none, trailEnabled := none,
    trailColor := none, trailLength := none, cursorStyle := none }

/-- A snapshot resolving to the same four style inputs as `bareSnap` but
with different `trailEnabled` / `trailLength` and explicitly-stored
default values. -/
def defaultedSnap : SettingsSnapshot :=
  { cursorSize := some 20, cursorColor := some "#ffffff",
    trailEnabled := some true, trailColor := some "#ffffff",
    trailLength := some 50, cursorStyle := some "circle" }

/-- Witness for C10. -/
theorem styleText_function_of_four_settings_witness :
    styleTextFor bareSnap = styleTextFor defaultedSnap :=
  styleText_function_of_four_settings bareSnap defaultedSnap
    (by decide) (by decide) (by decide) (by decide)

/-- A store snapshot with trail on and trailLength 3. -/
def lenSnap3 : SettingsSnapshot :=
  { cursorSize := none, cursorColor := none, trailEnabled := some true,
    trailColor := none, trailLength := some 3, cursorStyle := none }

/-- The same store with trailLength lowered to 1. -/
def lenSnap1 : SettingsSnapshot :=
  { cursorSize := none, cursorColor := none, trailEnabled := some true,
    trailColor := none, trailLength := some 1, cursorStyle := none }

/-- Start, three quick moves at trailLength 3, then lower trailLength to 1. -/
def overLenState : OverlayState :=
  runTrace (initialState (some lenSnap3))
    [Event.startEv true, Event.move 0 0 0, Event.move 1 1 1, Event.move 2 2 2,
     Event.setStore (some lenSnap1) OptionKey.trailLength]

/-- C2, counterexample: the invariant "queue length ≤ current trailLength at
all times, including across changes of the trailLength setting" fails.  Fill
the queue to 3 under trailLength 3, then lower the setting to 1: the
reachable state keeps 3 queued dots while the current setting resolves to 1
(the change callback performs no trim — `trailLength` registers none). -/
theorem queue_exceeds_lowered_trailLength :
    Reachable overLenState ∧ overLenState.trail.length = 3 ∧
      storeTrailLength overLenState.store = 1 ∧
      ¬ ((overLenState.trail.length : ℚ) ≤ storeTrailLength overLenState.store) := by
  refine ⟨?_, rfl, rfl, by decide⟩
  have h0 : Reachable (initialState (some lenSnap3)) := Reachable.init _
  have h1 : Reachable (step (initialState (some lenSnap3)) (Event.startEv true)) :=
    Reachable.next h0 rfl
  have h2 : Reachable (step (step (initialState (some lenSnap3))
      (Event.startEv true)) (Event.move 0 0 0)) :=
    Reachable.next h1 (le_refl 0)
  have h3 : Reachable (step (step (step (initialState (some lenSnap3))
      (Event.startEv true)) (Event.move 0 0 0)) (Event.move 1 1 1)) :=
    Reachable.next h2 (show (0 : ℚ) ≤ 1 by norm_num)
  have h4 : Reachable (step (step (step (step (initialState (some lenSnap3))
      (Event.startEv true)) (Event.move 0 0 0)) (Event.move 1 1 1))
      (Event.move 2 2 2)) :=
    Reachable.next h3 (show (1 : ℚ) ≤ 2 by norm_num)
  have h5 : Reachable (step (step (step (step (step (initialState (some lenSnap3))
      (Event.startEv true)) (Event.move 0 0 0)) (Event.move 1 1 1))
      (Event.move 2 2 2)) (Event.setStore (some lenSnap1) OptionKey.trailLength)) :=
    Reachable.next h4 trivial
  exact h5

/-- C2 (amended): in every state reached by a run in which the resolved
trailLength setting is held constant at a value L ≥ 0 (the spec types it a
positive integer), the queue length is at most L; and every pointer-move
event either leaves the queue unchanged, appends one new dot, or appends
one new dot and then drops the oldest (the head) — oldest evicted first. -/
theorem queue_bounded_under_constant_trailLength (L : ℚ) (hL : 0 ≤ L)
    (store0 : Option SettingsSnapshot) (h0 : storeTrailLength store0 = L)
    (tr : List Event)
    (htr : ∀ st k, Event.setStore st k ∈ tr → storeTrailLength st = L) :
    (((runTrace (initialState store0) tr).trail.length : ℚ)) ≤ L ∧
    ∀ s x y t, (updateMousePosition s x y t).trail = s.trail ∨
      ∃ d, (updateMousePosition s x y t).trail = s.trail ++ [d] ∨
           (updateMousePosition s x y t).trail = (s.trail ++ [d]).tail := by
  constructor
  · exact run_len_pres L hL tr (initialState store0) h0 (by simpa using hL) htr
  · exact fun s x y t => move_trail_cases s x y t

/-- Witness for C2 (amended). -/
theorem queue_bounded_under_constant_trailLength_witness :
    (((runTrace (initialState (some lenSnap3))
      [Event.startEv true, Event.move 0 0 0, Event.move 1 1 1,
       Event.move 2 2 2]).trail.length : ℚ)) ≤ 3 :=
  (queue_bounded_under_constant_trailLength 3 (by norm_num) (some lenSnap3) rfl
    [Event.startEv true, Event.move 0 0 0, Event.move 1 1 1, Event.move 2 2 2]
    (by intro st k h; simp at h)).1

/-- C3: with the trail enabled and trailLength resolving to the natural
number N, starting from an empty queue, any run of M > N pointer-move
events (with the store held fixed) leaves the queue at length exactly N,
and at most N trail-dot elements attached (evicted overflow is detached
immediately by the code, so exactly the N queued dots remain). -/
theorem queue_saturates_at_trailLength (st : SettingsSnapshot) (N : ℕ)
    (hen : resolvedTrailEnabled st = true)
    (hN : resolvedTrailLength st = (N : ℚ))
    (s0 : OverlayState) (h0 : QInv st s0) (hq0 : s0.trail = [])
    (ms : List (ℚ × ℚ × ℚ)) (hM : N < ms.length) :
    (runTrace s0 (moveEvents ms)).trail.length = N ∧
    (runTrace s0 (moveEvents ms)).attachedDots.length ≤ N := by
  obtain ⟨hqr, hlen⟩ := qinv_run st N hen hN ms s0 h0
    (by rw [hq0]; exact Nat.zero_le N)
  have hfinal : (runTrace s0 (moveEvents ms)).trail.length = N := by
    rw [hlen, hq0]
    simp only [List.length_nil, Nat.zero_add]
    omega
  refine ⟨hfinal, ?_⟩
  rw [hqr.2.2.1]
  exact le_of_eq hfinal

/-- A store snapshot with trail on and trailLength 2. -/
def satSnap : SettingsSnapshot :=
  { cursorSize := none, cursorColor := none, trailEnabled := some true,
    trailColor := none, trailLength := some 2, cursorStyle := none }

/-- Freshly started state over `satSnap`. -/
def satStart : OverlayState := step (initialState (some satSnap)) (Event.startEv true)

/-- Witness for C3: three moves at trailLength 2 leave exactly 2 queued. -/
theorem queue_saturates_at_trailLength_witness :
    (runTrace satStart (moveEvents [(0, 0, 0), (1, 1, 1), (2, 2, 2)])).trail.length = 2 ∧
    (runTrace satStart (moveEvents [(0, 0, 0), (1, 1, 1), (2, 2, 2)])).attachedDots.length ≤ 2 :=
  queue_saturates_at_trailLength satSnap 2 rfl (by norm_num [resolvedTrailLength, satSnap])
    satStart
    ⟨rfl, rfl, rfl, List.Pairwise.nil, fun d hd => absurd hd (List.not_mem_nil d)⟩
    rfl [(0, 0, 0), (1, 1, 1), (2, 2, 2)] (by norm_num)

/-- C7: `stop()` is a total function (never raises); from every reachable
state it detaches the stylesheet node, the overlay node and every trail dot,
empties the queue and releases the listener and node references; and called
on a state where `start` never ran it leaves the state exactly unchanged. -/
theorem stop_restores_inactive :
    (∀ s, Reachable s →
      (stop s).listener = false ∧ (stop s).style = false ∧
      (stop s).cursor = false ∧ (stop s).trail = [] ∧
      (stop s).attachedDots = []) ∧
    ∀ store, stop (initialState store) = initialState store := by
  constructor
  · intro s hs
    obtain ⟨hEq, hpw, hfr, htfr, htm⟩ := reachable_inv s hs
    rw [stop_eq s]
    refine ⟨rfl, rfl, rfl, rfl, ?_⟩
    rw [List.filter_eq_nil_iff]
    intro d hd
    have hdt : d ∈ s.trail := hEq ▸ hd
    have hmem : d.id ∈ dotIds s.trail := List.mem_map_of_mem Dot.id hdt
    simp
    exact hmem
  · intro store
    rfl

/-- The demo store: cursorSize 20, trail on, trailLength 5. -/
def demoSnap : SettingsSnapshot :=
  { cursorSize := some 20, cursorColor := none, trailEnabled := some true,
    trailColor := none, trailLength := some 5, cursorStyle := none }

/-- Started state over `demoSnap`. -/
def demoStarted : OverlayState :=
  step (initialState (some demoSnap)) (Event.startEv true)

/-- `demoStarted` after one pointer move at (100, 100): it holds one
attached trail dot. -/
def demoMoved : OverlayState := step demoStarted (Event.move 100 100 0)

theorem demoMoved_reachable : Reachable demoMoved := by
  have h0 : Reachable (initialState (some demoSnap)) := Reachable.init _
  have h1 : Reachable (step (initialState (some demoSnap)) (Event.startEv true)) :=
    Reachable.next h0 rfl
  exact Reachable.next h1 (le_refl 0)

/-- Witness for C7. -/
theorem stop_restores_inactive_witness :
    (stop demoMoved).listener = false ∧ (stop demoMoved).style = false ∧
    (stop demoMoved).cursor = false ∧ (stop demoMoved).trail = [] ∧
    (stop demoMoved).attachedDots = [] :=
  stop_restores_inactive.1 demoMoved demoMoved_reachable

theorem evictOverflow_of_not_gt (s : OverlayState) (limit : ℚ)
    (h : ¬((s.trail.length : ℚ) > limit)) : evictOverflow s limit = s := by
  unfold evictOverflow
  rw [if_neg h]

theorem evictOverflow_attached_mem (s : OverlayState) (limit : ℚ) (d : Dot)
    (hd : d ∈ s.attachedDots)
    (hne : ((s.trail.length : ℚ) > limit) →
      ∀ d0, s.trail.head? = some d0 → d0.id ≠ d.id) :
    d ∈ (evictOverflow s limit).attachedDots := by
  rcases s with ⟨st, stx, cur, ct, li, tr, ad, tm, ni, no, sto⟩
  by_cases h : ((tr.length : ℚ) > limit)
  · cases tr with
    | nil =>
      simpa [evictOverflow, h] using hd
    | cons d0 rest =>
      have h' : limit < ((rest.length : ℚ) + 1) := by
        rw [List.length_cons] at h
        push_cast at h
        linarith
      have hne0 : d0.id ≠ d.id := hne h d0 rfl
      by_cases ha : ad.any (fun x => x.id == d0.id) = true
      · have key : (evictOverflow
            { style := st, styleText := stx, cursor := cur, cursorTransform := ct,
              listener := li, trail := d0 :: rest, attachedDots := ad, timers := tm,
              nextId := ni, now := no, store := sto } limit).attachedDots =
            ad.filter (fun x => x.id != d0.id) := by
          simp [evictOverflow, h', ha]
        rw [key, List.mem_filter]
        exact ⟨hd, bne_iff_ne.mpr (Ne.symm hne0)⟩
      · simpa [evictOverflow, h', ha] using hd
  · simpa [evictOverflow, h] using hd

/-- C4: a pointer-move at `(x, y)` with resolved cursor size S translates
the overlay node by `(x - S/2, y - S/2)` (centring it on the pointer), and
— when the trail is enabled and trailLength resolves to at least 1 — the
dot spawned by that event has `left`/`top` set to `(x - S/4, y - S/4)`, is
the newest element of the queue, and is attached to the surface. -/
theorem move_offsets_overlay_and_dot (s : OverlayState) (st : SettingsSnapshot)
    (x y t S : ℚ) (hc : s.cursor = true) (hst : s.store = some st)
    (hS : resolvedCursorSize st = S)
    (hfr : ∀ d ∈ s.trail, d.id < s.nextId) :
    (updateMousePosition s x y t).cursorTransform =
      some (x - S / 2, y - S / 2) ∧
    (resolvedTrailEnabled st = true → 1 ≤ resolvedTrailLength st →
      (updateMousePosition s x y t).trail.getLast? =
        some ⟨s.nextId, x - S / 4, y - S / 4⟩ ∧
      (⟨s.nextId, x - S / 4, y - S / 4⟩ : Dot) ∈
        (updateMousePosition s x y t).attachedDots) := by
  subst hS
  by_cases hen : resolvedTrailEnabled st = true
  · rw [move_eq_trail s st x y t hc hst hen]
    set n : Dot := ⟨s.nextId, x - resolvedCursorSize st / 4,
      y - resolvedCursorSize st / 4⟩ with hn
    set s1 : OverlayState :=
      { s with now := t,
               cursorTransform := some (x - resolvedCursorSize st / 2,
                                        y - resolvedCursorSize st / 2),
               attachedDots := s.attachedDots ++ [n],
               trail := s.trail ++ [n],
               nextId := s.nextId + 1 } with hs1
    obtain ⟨A, T, hres, hA, hT⟩ := evictOverflow_shape s1 (resolvedTrailLength st)
    constructor
    · show (evictOverflow s1 (resolvedTrailLength st)).cursorTransform = _
      rw [hres]
    · intro _ hL1
      constructor
      · show (evictOverflow s1 (resolvedTrailLength st)).trail.getLast? = some n
        rw [evictOverflow_trail s1 (resolvedTrailLength st)]
        by_cases hov : ((s1.trail.length : ℚ) > resolvedTrailLength st)
        · rw [if_pos hov]
          cases htr : s.trail with
          | nil =>
            exfalso
            have : (s1.trail.length : ℚ) = 1 := by
              rw [hs1]
              dsimp only
              rw [htr]
              norm_num
            rw [this] at hov
            linarith
          | cons d0 l' =>
            show ((s.trail ++ [n]).tail).getLast? = some n
            rw [htr]
            show ((l' ++ [n])).getLast? = some n
            exact List.getLast?_concat _
        · rw [if_neg hov]
          exact List.getLast?_concat _
      · show n ∈ (evictOverflow s1 (resolvedTrailLength st)).attachedDots
        apply evictOverflow_attached_mem s1 (resolvedTrailLength st) n
          (List.mem_append_right _ (List.mem_singleton.mpr rfl))
        intro hov d0 hd0
        cases htr : s.trail with
        | nil =>
          exfalso
          have : (s1.trail.length : ℚ) = 1 := by
            rw [hs1]
            dsimp only
            rw [htr]
            norm_num
          rw [this] at hov
          linarith
        | cons dh l' =>
          have hd0' : dh = d0 := by
            rw [show s1.trail = s.trail ++ [n] from rfl, htr] at hd0
            simpa using hd0
          have hmem0 : d0 ∈ s.trail := by
            rw [htr]
            exact hd0' ▸ List.mem_cons_self dh l'
          exact Nat.ne_of_lt (hfr d0 hmem0)
  · have hen' : resolvedTrailEnabled st = false := by simpa using hen
    rw [move_eq_noTrail s st x y t hc hst hen']
    exact ⟨rfl, fun h1 _ => absurd h1 (by rw [hen']; simp)⟩

/-- Witness for C4: cursorSize 20, pointer move at (100, 100): the overlay
translate is (90, 90) and the spawned dot sits at (95, 95). -/
theorem move_offsets_overlay_and_dot_witness :
    (updateMousePosition demoStarted 100 100 0).cursorTransform =
      some (100 - 20 / 2, 100 - 20 / 2) ∧
    (resolvedTrailEnabled demoSnap = true → 1 ≤ resolvedTrailLength demoSnap →
      (updateMousePosition demoStarted 100 100 0).trail.getLast? =
        some ⟨demoStarted.nextId, 100 - 20 / 4, 100 - 20 / 4⟩ ∧
      (⟨demoStarted.nextId, 100 - 20 / 4, 100 - 20 / 4⟩ : Dot) ∈
        (updateMousePosition demoStarted 100 100 0).attachedDots) :=
  move_offsets_overlay_and_dot demoStarted demoSnap 100 100 0 20 rfl rfl rfl
    (fun d hd => absurd hd (List.not_mem_nil d))

/-- C5: in every reachable state, every attached trail dot has a pending
removal timer due within 100ms (at spawn its deadline is exactly spawn time
+ 100, and deadlines never move); the code never cancels a timer, and once
the event loop fires that timer the callback detaches the dot, filters it
out of the queue, and no later event sequence can ever re-attach or
re-queue it (ids are fresh).  Under the event loop's guarantee that every
pending `setTimeout` callback runs by its deadline, the dot is therefore
off the surface within 100ms of its creation. -/
theorem trail_dot_timed_removal (s : OverlayState) (hs : Reachable s)
    (dot : Dot) (hd : dot ∈ s.attachedDots) :
    ∃ dl, (dot.id, dl) ∈ s.timers ∧ dl ≤ s.now + 100 ∧
      ∀ tr : List Event,
        (∀ d ∈ (runTrace (step s (Event.timerFire dot.id)) tr).attachedDots,
          d.id ≠ dot.id) ∧
        (∀ d ∈ (runTrace (step s (Event.timerFire dot.id)) tr).trail,
          d.id ≠ dot.id) := by
  obtain ⟨hEq, hpw, hfr, htfr, htm⟩ := reachable_inv s hs
  have hdt : dot ∈ s.trail := hEq ▸ hd
  obtain ⟨dl, hmem, hle⟩ := htm dot hdt
  refine ⟨dl, hmem, hle, ?_⟩
  intro tr
  have habs := absent_runTrace _ _ (fire_absent s dot.id (hfr dot hdt)) tr
  exact ⟨habs.1, habs.2.1⟩

/-- Witness for C5, on the reachable state `demoMoved` and its one dot. -/
theorem trail_dot_timed_removal_witness :
    ∃ dl, ((⟨0, 95, 95⟩ : Dot).id, dl) ∈ demoMoved.timers ∧
      dl ≤ demoMoved.now + 100 ∧
      ∀ tr : List Event,
        (∀ d ∈ (runTrace (step demoMoved
            (Event.timerFire (⟨0, 95, 95⟩ : Dot).id)) tr).attachedDots,
          d.id ≠ (⟨0, 95, 95⟩ : Dot).id) ∧
        (∀ d ∈ (runTrace (step demoMoved
            (Event.timerFire (⟨0, 95, 95⟩ : Dot).id)) tr).trail,
          d.id ≠ (⟨0, 95, 95⟩ : Dot).id) :=
  trail_dot_timed_removal demoMoved demoMoved_reachable ⟨0, 95, 95⟩
    (by norm_num [demoMoved, demoStarted, step, initialState, start,
      updateStyles, updateMousePosition, spawnDot, evictOverflow,
      scheduleRemoval, resolvedCursorSize, resolvedTrailEnabled,
      resolvedTrailLength, demoSnap, defaultSettings])

/-- C8: with the store's trailEnabled falsy, any run of pointer-move events
from a state with no trail dots spawns none: the queue and surface stay
empty, and nothing changes except the overlay transform (and the clock) —
timers, stylesheet, nodes, listener, id counter and store are untouched. -/
theorem moves_with_trail_disabled (st : SettingsSnapshot)
    (hen : resolvedTrailEnabled st = false) :
    ∀ (ms : List (ℚ × ℚ × ℚ)) (s : OverlayState), s.store = some st →
      s.trail = [] → s.attachedDots = [] →
      (runTrace s (moveEvents ms)).trail = [] ∧
      (runTrace s (moveEvents ms)).attachedDots = [] ∧
      (runTrace s (moveEvents ms)).timers = s.timers ∧
      (runTrace s (moveEvents ms)).styleText = s.styleText ∧
      (runTrace s (moveEvents ms)).style = s.style ∧
      (runTrace s (moveEvents ms)).cursor = s.cursor ∧
      (runTrace s (moveEvents ms)).listener = s.listener ∧
      (runTrace s (moveEvents ms)).nextId = s.nextId ∧
      (runTrace s (moveEvents ms)).store = s.store := by
  intro ms
  induction ms with
  | nil =>
    intro s hst hq ha
    exact ⟨hq, ha, rfl, rfl, rfl, rfl, rfl, rfl, rfl⟩
  | cons m ms ih =>
    intro s hst hq ha
    rw [show runTrace s (moveEvents (m :: ms)) =
      runTrace (updateMousePosition s m.1 m.2.1 m.2.2) (moveEvents ms) from rfl]
    by_cases hc : s.cursor = false
    · rw [move_eq_noCursor s m.1 m.2.1 m.2.2 hc]
      exact ih _ hst hq ha
    · have hc' : s.cursor = true := by simpa using hc
      rw [move_eq_noTrail s st m.1 m.2.1 m.2.2 hc' hst hen]
      exact ih _ hst hq ha

/-- The started state over the all-missing snapshot (trail disabled by
truthiness). -/
def disabledStart : OverlayState :=
  step (initialState (some bareSnap)) (Event.startEv true)

/-- Witness for C8. -/
theorem moves_with_trail_disabled_witness :
    (runTrace disabledStart (moveEvents [(5, 6, 0), (7, 8, 1)])).trail = [] ∧
    (runTrace disabledStart (moveEvents [(5, 6, 0), (7, 8, 1)])).attachedDots = [] ∧
    (runTrace disabledStart (moveEvents [(5, 6, 0), (7, 8, 1)])).timers =
      disabledStart.timers ∧
    (runTrace disabledStart (moveEvents [(5, 6, 0), (7, 8, 1)])).styleText =
      disabledStart.styleText ∧
    (runTrace disabledStart (moveEvents [(5, 6, 0), (7, 8, 1)])).style =
      disabledStart.style ∧
    (runTrace disabledStart (moveEvents [(5, 6, 0), (7, 8, 1)])).cursor =
      disabledStart.cursor ∧
    (runTrace disabledStart (moveEvents [(5, 6, 0), (7, 8, 1)])).listener =
      disabledStart.listener ∧
    (runTrace disabledStart (moveEvents [(5, 6, 0), (7, 8, 1)])).nextId =
      disabledStart.nextId ∧
    (runTrace disabledStart (moveEvents [(5, 6, 0), (7, 8, 1)])).store =
      disabledStart.store :=
  moves_with_trail_disabled bareSnap rfl [(5, 6, 0), (7, 8, 1)] disabledStart
    rfl rfl rfl

end MouseOverlay
